import Mathlib

/-!
Shallow embedding of the SecureNotes encrypted-note persistence pipeline:
the `EncryptionService` (keychain-backed key store plus AES-CBC cipher glue,
in the two source revisions the claims cite), the `DatabaseService` (CRUD
over encrypted note rows in a SQLite table), and the `NotePresenter`
(observer relay).  Native collaborators (the AES primitive, the keychain,
the random generator and the clock) are modelled as explicit parameters;
their outputs (random hex strings, timestamps) are passed in as arguments.
Stateful services are modelled by explicit state passing.  JavaScript
strings are modelled by Lean strings, identifying UTF-16 code units with
Unicode code points (exact on the basic multilingual plane).
-/

/-- Model of the native AES collaborator (react-native-aes-crypto).
`encrypt data key iv algo` returns the ciphertext; `decrypt` is fallible
(the native call rejects on wrong key, corrupt ciphertext or padding
failure), modelled as `Option`.  `pbkdf2 password salt iterations keyLen
hash` derives a key. -/
structure Aes where
  encrypt : String → String → String → String → String
  decrypt : String → String → String → String → Option String
  pbkdf2 : String → String → Nat → Nat → String → String

namespace EncryptionService

/-- State of the platform keychain entry for service
"com.securenotes.encryption": `password` is the stored secret, `none` when no
generic password is stored for the service. -/
structure KeychainState where
  password : Option String
deriving DecidableEq, Repr

/-- Fixed salt from the source: `SALT = 'SecureNotesAppSalt'`. -/
def SALT : String := "SecureNotesAppSalt"

/-- EncryptionService.getEncryptionKey: returns the stored keychain password
if present; otherwise derives a key with pbkdf2 from fresh random bytes
(`randomBytes`, the output of Aes.randomKey modelled as an argument) with the
fixed salt, 10000 iterations, 32-byte length and sha512, stores it in the
keychain and returns it. -/
def getEncryptionKey (A : Aes) (randomBytes : String) (kc : KeychainState) :
    String × KeychainState :=
  match kc.password with
  | some pw => (pw, kc)
  | none =>
      let key := A.pbkdf2 randomBytes SALT 10000 32 "sha512"
      (key, ⟨some key⟩)

/-- EncryptionService.encrypt: obtains the key, uses a fresh random 16-byte
IV (`ivr`, the output of Aes.randomKey 16 modelled as an argument) and
returns the AES-256-CBC ciphertext together with the IV, threading the
keychain state. -/
def encrypt (A : Aes) (randomBytes ivr : String) (kc : KeychainState)
    (data : String) : (String × String) × KeychainState :=
  let key := (getEncryptionKey A randomBytes kc).1
  let kc' := (getEncryptionKey A randomBytes kc).2
  ((A.encrypt data key ivr "aes-256-cbc", ivr), kc')

/-- EncryptionService.decrypt: obtains the key and decrypts with
AES-256-CBC; a native decryption failure is caught and rethrown as the
generic error string, modelled as `Except.error`. -/
def decrypt (A : Aes) (randomBytes : String) (kc : KeychainState)
    (encrypted iv : String) : Except String String × KeychainState :=
  let key := (getEncryptionKey A randomBytes kc).1
  let kc' := (getEncryptionKey A randomBytes kc).2
  match A.decrypt encrypted key iv "aes-256-cbc" with
  | some d => (.ok d, kc')
  | none => (.error "Failed to decrypt data", kc')

end EncryptionService

/-! Second revision of EncryptionService (the variant obtaining the cipher
from `NativeModules.RNAes`, which may be absent): it stores a random salt in
AsyncStorage, checks IV length in decrypt, and contains the XOR/base64
fallback used when the native primitive is unavailable. -/

/-- Fixed XOR key of the insecure fallback: "SecureNotesDevKey". -/
def DEV_KEY : String := "SecureNotesDevKey"

/-- XOR each character code of `data` with the character of `key` at the
index modulo the key length, as in the fallback loops of the source. -/
def xorWithKey (key : List Char) (data : List Char) : List Char :=
  data.enum.map (fun p =>
    Char.ofNat (p.2.toNat ^^^ (key.getD (p.1 % key.length) ' ').toNat))

/-- Base64 alphabet. -/
def base64Chars : List Char :=
  "ABCDEFGHIJKLMNOPQRSTUVWXYZabcdefghijklmnopqrstuvwxyz0123456789+/".toList

/-- Character of the base64 alphabet at index `n`. -/
def b64Char (n : Nat) : Char := base64Chars.getD n 'A'

/-- Index of a character in the base64 alphabet. -/
def b64Index (c : Char) : Option Nat := base64Chars.indexOf? c

/-- Standard base64 encoding of a byte list, with '=' padding. -/
def base64Encode : List Nat → String
  | [] => ""
  | [a] => String.mk [b64Char (a / 4), b64Char (a % 4 * 16), '=', '=']
  | [a, b] =>
      String.mk [b64Char (a / 4), b64Char (a % 4 * 16 + b / 16),
        b64Char (b % 16 * 4), '=']
  | a :: b :: c :: rest =>
      String.mk [b64Char (a / 4), b64Char (a % 4 * 16 + b / 16),
        b64Char (b % 16 * 4 + c / 64), b64Char (c % 64)]
        ++ base64Encode rest

/-- JS `btoa`: base64-encodes a string of character codes below 256, and
throws (modelled `none`) when any character code exceeds 255. -/
def btoa (s : List Char) : Option String :=
  if s.all (fun c => c.toNat < 256) then some (base64Encode (s.map Char.toNat))
  else none

/-- Base64 decoding of the character list, `none` on invalid input. -/
def atobCore : List Char → Option (List Nat)
  | [] => some []
  | [a, b, '=', '='] => do
      let x ← b64Index a
      let y ← b64Index b
      pure [x * 4 + y / 16]
  | [a, b, c, '='] => do
      let x ← b64Index a
      let y ← b64Index b
      let z ← b64Index c
      pure [x * 4 + y / 16, y % 16 * 16 + z / 4]
  | a :: b :: c :: d :: rest => do
      let x ← b64Index a
      let y ← b64Index b
      let z ← b64Index c
      let w ← b64Index d
      let tail ← atobCore rest
      pure ([x * 4 + y / 16, y % 16 * 16 + z / 4, z % 4 * 64 + w] ++ tail)
  | _ => none

/-- JS `atob`: decodes a base64 string to a list of byte values, throwing
(modelled `none`) on invalid input. -/
def atob (s : String) : Option (List Nat) := atobCore s.toList

namespace EncryptionService2

/-- Keychain entry plus the AsyncStorage salt entry under
"SECURE_NOTES_SALT". -/
structure EncState2 where
  keychain : Option String
  salt : Option String
deriving DecidableEq, Repr

/-- Model of `NativeModules.RNAes`: each native function is `Option` because
the module (or an individual function) may be absent, which the source
detects with `typeof Aes.f === 'function'` guards. -/
structure NativeAes where
  pbkdf2 : Option (String → String → Nat → Nat → String → String)
  encrypt : Option (String → String → String → String → String)
  decrypt : Option (String → String → String → String → Option String)

/-- getSalt: returns the stored salt if present, otherwise stores and
returns a fresh random 16-byte hex salt (`randomSaltHex`, the Math.random
loop output modelled as an argument). -/
def getSalt (randomSaltHex : String) (st : EncState2) : String × EncState2 :=
  match st.salt with
  | some s => (s, st)
  | none => (randomSaltHex, { st with salt := some randomSaltHex })

/-- getEncryptionKey of the second revision: returns the stored keychain
password if present; otherwise obtains the salt, takes a fresh random
32-byte hex key (`randomKeyHex`), derives a pbkdf2 key when the native
pbkdf2 is available (using the random key directly otherwise), stores the
result in the keychain and returns it. -/
def getEncryptionKey2 (N : NativeAes) (randomKeyHex randomSaltHex : String)
    (st : EncState2) : String × EncState2 :=
  match st.keychain with
  | some pw => (pw, st)
  | none =>
      let salt := (getSalt randomSaltHex st).1
      let st1 := (getSalt randomSaltHex st).2
      let key := match N.pbkdf2 with
        | some f => f randomKeyHex salt 10000 32 "sha512"
        | none => randomKeyHex
      (key, { st1 with keychain := some key })

/-- simpleFallbackEncrypt: XOR the data with the fixed dev key and base64
the result; if `btoa` throws on a non-Latin-1 character the source retries
on the URI-encoded string (`uriEnc` models the platform encodeURIComponent,
whose ASCII output makes the second `btoa` succeed). -/
def simpleFallbackEncrypt (uriEnc : String → String) (data : String) : String :=
  let result := xorWithKey DEV_KEY.toList data.toList
  match btoa result with
  | some s => s
  | none => (btoa (uriEnc (String.mk result)).toList).getD ""

/-- simpleFallbackDecrypt: base64-decode then XOR with the fixed dev key;
if `atob` throws, the catch branch calls `atob` again on the same input,
which throws once more, so the outer catch returns the input unchanged. -/
def simpleFallbackDecrypt (encrypted : String) : String :=
  match atob encrypted with
  | some bytes => String.mk (xorWithKey DEV_KEY.toList (bytes.map Char.ofNat))
  | none => encrypted

/-- encrypt of the second revision: obtains the key and a fresh random
16-byte hex IV (`ivHex`); if the native encrypt function is present it is
applied with AES-256-CBC, otherwise the operation falls back to
`simpleFallbackEncrypt` and still succeeds. -/
def encrypt2 (N : NativeAes) (uriEnc : String → String)
    (randomKeyHex randomSaltHex ivHex : String) (st : EncState2)
    (data : String) : Except String (String × String) × EncState2 :=
  let key := (getEncryptionKey2 N randomKeyHex randomSaltHex st).1
  let st1 := (getEncryptionKey2 N randomKeyHex randomSaltHex st).2
  let iv := ivHex
  match N.encrypt with
  | some f => (.ok (f data key iv "aes-256-cbc", iv), st1)
  | none => (.ok (simpleFallbackEncrypt uriEnc data, iv), st1)

/-- Failure modes of the decrypt try-block of the second revision. -/
inductive DecErr2 where
  | invalidIv
  | decryptionFailed
deriving DecidableEq, Repr

/-- Try-block of decrypt in the second revision: obtains the key, then
rejects an absent (empty) or wrong-length IV (the hex length must be
`IV_SIZE * 2 = 32`) before any decryption; with a valid IV it applies the
native decrypt when present (its rejection modelled as
`DecErr2.decryptionFailed`) and otherwise falls back to
`simpleFallbackDecrypt`. -/
def decrypt2Body (N : NativeAes) (randomKeyHex randomSaltHex : String)
    (st : EncState2) (encrypted iv : String) :
    Except DecErr2 String × EncState2 :=
  let key := (getEncryptionKey2 N randomKeyHex randomSaltHex st).1
  let st1 := (getEncryptionKey2 N randomKeyHex randomSaltHex st).2
  if iv = "" ∨ iv.length ≠ 32 then (.error .invalidIv, st1)
  else
    match N.decrypt with
    | some f =>
        match f encrypted key iv "aes-256-cbc" with
        | some d => (.ok d, st1)
        | none => (.error .decryptionFailed, st1)
    | none => (.ok (simpleFallbackDecrypt encrypted), st1)

/-- decrypt of the second revision: the catch block wraps every failure of
the try-block into the generic error 'Failed to decrypt data'. -/
def decrypt2 (N : NativeAes) (randomKeyHex randomSaltHex : String)
    (st : EncState2) (encrypted iv : String) : Except String String × EncState2 :=
  match decrypt2Body N randomKeyHex randomSaltHex st encrypted iv with
  | (.ok d, st1) => (.ok d, st1)
  | (.error _, st1) => (.error "Failed to decrypt data", st1)

end EncryptionService2

namespace DatabaseService

/-- The Note interface of DatabaseService.ts: `id`, `createdAt` and
`updatedAt` are optional (absent until persisted). -/
structure Note where
  id : Option Nat
  title : String
  content : String
  createdAt : Option Nat
  updatedAt : Option Nat
deriving DecidableEq, Repr

/-- The EncryptedNote interface / a row of the `notes` table: the primary
key, the two ciphertext-IV pairs and the integer epoch-millisecond
timestamps.  In a persisted row the id is always present. -/
structure EncryptedNote where
  id : Nat
  titleEncrypted : String
  titleIv : String
  contentEncrypted : String
  contentIv : String
  createdAt : Nat
  updatedAt : Nat
deriving DecidableEq, Repr

/-- State of the opened SQLite database plus the keychain the encryption
layer threads through: `rows` are the rows of the `notes` table in insertion
order, `nextId` the AUTOINCREMENT counter (the id the next INSERT assigns),
`kc` the keychain state used by EncryptionService. -/
structure DbState where
  rows : List EncryptedNote
  nextId : Nat
  kc : EncryptionService.KeychainState
deriving DecidableEq, Repr

/-- JS truthiness of an optional number (`if (note.id)`): undefined and 0
are falsy. -/
def jsTruthyNum : Option Nat → Bool
  | some n => n != 0
  | none => false

/-- JS `a || b` for an optional number a (`note.createdAt || timestamp`):
yields b when a is undefined or 0. -/
def jsOrNum : Option Nat → Nat → Nat
  | some n, b => if n = 0 then b else n
  | none, b => b

/-- DatabaseService.saveNote: takes the current timestamp (`now`, the
Date.now() reading), encrypts title and content through EncryptionService
(threading the keychain state; `iv1`, `iv2` are the two fresh random IVs and
`rkey` the random bytes a first-ever key generation would consume), then
either UPDATEs the row matching `note.id` (when the id is truthy),
returning the same id, or INSERTs a new row with the AUTOINCREMENT id,
returning `insertId`.  The UPDATE sets the four encrypted fields and
updatedAt only; the INSERT also sets `createdAt = note.createdAt ||
timestamp`. -/
def saveNote (A : Aes) (rkey iv1 iv2 : String) (now : Nat) (st : DbState)
    (note : Note) : Nat × DbState :=
  let timestamp := now
  let titleEncrypted := (EncryptionService.encrypt A rkey iv1 st.kc note.title).1.1
  let titleIv := (EncryptionService.encrypt A rkey iv1 st.kc note.title).1.2
  let kc1 := (EncryptionService.encrypt A rkey iv1 st.kc note.title).2
  let contentEncrypted := (EncryptionService.encrypt A rkey iv2 kc1 note.content).1.1
  let contentIv := (EncryptionService.encrypt A rkey iv2 kc1 note.content).1.2
  let kc2 := (EncryptionService.encrypt A rkey iv2 kc1 note.content).2
  let createdAt := jsOrNum note.createdAt timestamp
  let updatedAt := timestamp
  if jsTruthyNum note.id then
    let n := note.id.getD 0
    let rows := st.rows.map (fun r =>
      if r.id = n then
        { r with titleEncrypted := titleEncrypted, titleIv := titleIv,
                 contentEncrypted := contentEncrypted, contentIv := contentIv,
                 updatedAt := updatedAt }
      else r)
    (n, { st with rows := rows, kc := kc2 })
  else
    let newRow : EncryptedNote :=
      { id := st.nextId, titleEncrypted := titleEncrypted, titleIv := titleIv,
        contentEncrypted := contentEncrypted, contentIv := contentIv,
        createdAt := createdAt, updatedAt := updatedAt }
    (st.nextId, { rows := st.rows ++ [newRow], nextId := st.nextId + 1, kc := kc2 })

/-- DatabaseService.decryptNote: decrypts the title, then the content; if
either EncryptionService.decrypt fails the whole helper fails with the
DecodeFailed error 'Failed to decrypt note data'; on success it returns the
plaintext Note carrying the row id and timestamps. -/
def decryptNote (A : Aes) (rkey : String) (kc : EncryptionService.KeychainState)
    (r : EncryptedNote) : Except String Note × EncryptionService.KeychainState :=
  let t := EncryptionService.decrypt A rkey kc r.titleEncrypted r.titleIv
  match t.1 with
  | .error _ => (.error "Failed to decrypt note data", t.2)
  | .ok title =>
      let c := EncryptionService.decrypt A rkey t.2 r.contentEncrypted r.contentIv
      match c.1 with
      | .error _ => (.error "Failed to decrypt note data", c.2)
      | .ok content =>
          (.ok { id := some r.id, title := title, content := content,
                 createdAt := some r.createdAt, updatedAt := some r.updatedAt },
           c.2)

/-- DatabaseService.getNote: SELECTs the row whose id matches; absent row
yields `Except.ok none` (null, not an error); a found row is decoded by
decryptNote, whose failure propagates. -/
def getNote (A : Aes) (rkey : String) (st : DbState) (i : Nat) :
    Except String (Option Note) × DbState :=
  match st.rows.find? (fun r => r.id == i) with
  | none => (.ok none, st)
  | some r =>
      let d := decryptNote A rkey st.kc r
      match d.1 with
      | .ok n => (.ok (some n), { st with kc := d.2 })
      | .error e => (.error e, { st with kc := d.2 })

/-- Ordering realising `ORDER BY updatedAt DESC`: row a precedes row b when
b.updatedAt ≤ a.updatedAt. -/
def updatedDescRel (a b : EncryptedNote) : Prop := b.updatedAt ≤ a.updatedAt

instance : DecidableRel updatedDescRel := fun a b => Nat.decLe b.updatedAt a.updatedAt

instance : IsTotal EncryptedNote updatedDescRel :=
  ⟨fun a b => Nat.le_total b.updatedAt a.updatedAt⟩

instance : IsTrans EncryptedNote updatedDescRel :=
  ⟨fun _ _ _ hab hbc => Nat.le_trans hbc hab⟩

/-- Loop body of getAllNotes: decrypt each row in order, pushing successes
and skipping (only) rows whose decryption fails, threading the keychain
state. -/
def getAllNotesLoop (A : Aes) (rkey : String) :
    List EncryptedNote → EncryptionService.KeychainState →
      List Note × EncryptionService.KeychainState
  | [], kc => ([], kc)
  | r :: rs, kc =>
      let d := decryptNote A rkey kc r
      let rest := getAllNotesLoop A rkey rs d.2
      match d.1 with
      | .ok n => (n :: rest.1, rest.2)
      | .error _ => (rest.1, rest.2)

/-- DatabaseService.getAllNotes: SELECTs all rows ordered by updatedAt
descending and decodes them with the skip-on-failure loop. -/
def getAllNotes (A : Aes) (rkey : String) (st : DbState) : List Note × DbState :=
  let sortedRows := List.insertionSort updatedDescRel st.rows
  let res := getAllNotesLoop A rkey sortedRows st.kc
  (res.1, { st with kc := res.2 })

/-- DatabaseService.deleteNote: DELETEs the rows whose id matches (a no-op
when none does). -/
def deleteNote (st : DbState) (i : Nat) : DbState :=
  { st with rows := st.rows.filter (fun r => r.id != i) }

end DatabaseService

namespace NotePresenter

open DatabaseService

/-- A notification delivered to the registered view, one constructor per
NoteView callback. -/
inductive ViewEvent where
  | notesLoaded (notes : List Note)
  | noteAdded (note : Note)
  | noteUpdated (note : Note)
  | noteDeleted (i : Nat)
  | errorEvent (msg : String)
deriving DecidableEq, Repr

/-- NotePresenter.loadNotes: fetches all notes and, if a view is registered,
notifies it with onNotesLoaded; a store failure would be relayed through
handleError (the store's getAllNotes itself never throws in this model). -/
def loadNotes (A : Aes) (rkey : String) (st : DbState) (hasView : Bool) :
    List ViewEvent × DbState :=
  let res := getAllNotes A rkey st
  ((if hasView then [ViewEvent.notesLoaded res.1] else []), res.2)

/-- NotePresenter.addNote: saves a fresh note (no id), re-fetches it by the
returned id and notifies onNoteAdded when both the fetch found a note and a
view is registered; a thrown error is relayed to onError by handleError.
When the fetch returns null no notification at all is delivered. -/
def addNote (A : Aes) (rkey iv1 iv2 rkey2 : String) (now : Nat) (st : DbState)
    (title content : String) (hasView : Bool) : List ViewEvent × DbState :=
  let s := saveNote A rkey iv1 iv2 now st
    { id := none, title := title, content := content,
      createdAt := none, updatedAt := none }
  let g := getNote A rkey2 s.2 s.1
  match g.1 with
  | .ok (some note) => ((if hasView then [ViewEvent.noteAdded note] else []), g.2)
  | .ok none => ([], g.2)
  | .error e => ((if hasView then [ViewEvent.errorEvent e] else []), g.2)

/-- NotePresenter.updateNote: saves the note under its id, re-fetches it and
notifies onNoteUpdated when both the fetch found a note and a view is
registered; a thrown error is relayed to onError.  When the fetch returns
null no notification at all is delivered. -/
def updateNote (A : Aes) (rkey iv1 iv2 rkey2 : String) (now : Nat)
    (st : DbState) (i : Nat) (title content : String) (hasView : Bool) :
    List ViewEvent × DbState :=
  let s := saveNote A rkey iv1 iv2 now st
    { id := some i, title := title, content := content,
      createdAt := none, updatedAt := none }
  let g := getNote A rkey2 s.2 i
  match g.1 with
  | .ok (some note) => ((if hasView then [ViewEvent.noteUpdated note] else []), g.2)
  | .ok none => ([], g.2)
  | .error e => ((if hasView then [ViewEvent.errorEvent e] else []), g.2)

/-- NotePresenter.deleteNote: deletes the row and notifies onNoteDeleted
when a view is registered (the store delete never throws in this model). -/
def deleteNote (st : DbState) (i : Nat) (hasView : Bool) :
    List ViewEvent × DbState :=
  ((if hasView then [ViewEvent.noteDeleted i] else []), DatabaseService.deleteNote st i)

end NotePresenter

/-! Theorems. -/

theorem getEncryptionKey_state (A : Aes) (r : String)
    (kc : EncryptionService.KeychainState) :
    (EncryptionService.getEncryptionKey A r kc).2
      = ⟨some (EncryptionService.getEncryptionKey A r kc).1⟩ := by
  obtain ⟨p⟩ := kc
  cases p <;> rfl

theorem getEncryptionKey_stored (A : Aes) (r k : String) :
    EncryptionService.getEncryptionKey A r ⟨some k⟩ = (k, ⟨some k⟩) := rfl

theorem encrypt_eq (A : Aes) (rkey ivr : String)
    (kc : EncryptionService.KeychainState) (d : String) :
    EncryptionService.encrypt A rkey ivr kc d
      = ((A.encrypt d (EncryptionService.getEncryptionKey A rkey kc).1 ivr
            "aes-256-cbc", ivr),
         ⟨some (EncryptionService.getEncryptionKey A rkey kc).1⟩) := by
  simp only [EncryptionService.encrypt]
  rw [getEncryptionKey_state]

theorem decrypt_stored (A : Aes) (rkey k e iv : String) :
    EncryptionService.decrypt A rkey ⟨some k⟩ e iv
      = ((match A.decrypt e k iv "aes-256-cbc" with
          | some d => .ok d
          | none => .error "Failed to decrypt data"),
         ⟨some k⟩) := by
  simp only [EncryptionService.decrypt, getEncryptionKey_stored]
  cases A.decrypt e k iv "aes-256-cbc" <;> rfl

theorem decryptNote_stored (A : Aes) (rkey k : String)
    (r : DatabaseService.EncryptedNote) :
    DatabaseService.decryptNote A rkey ⟨some k⟩ r
      = ((match A.decrypt r.titleEncrypted k r.titleIv "aes-256-cbc",
                A.decrypt r.contentEncrypted k r.contentIv "aes-256-cbc" with
          | none, _ => .error "Failed to decrypt note data"
          | some _, none => .error "Failed to decrypt note data"
          | some title, some content =>
              .ok ⟨some r.id, title, content, some r.createdAt, some r.updatedAt⟩),
         ⟨some k⟩) := by
  simp only [DatabaseService.decryptNote, decrypt_stored]
  cases A.decrypt r.titleEncrypted k r.titleIv "aes-256-cbc" <;>
    cases A.decrypt r.contentEncrypted k r.contentIv "aes-256-cbc" <;> rfl

theorem saveNote_insert (A : Aes) (rkey iv1 iv2 : String) (now : Nat)
    (st : DatabaseService.DbState) (T C : String) :
    DatabaseService.saveNote A rkey iv1 iv2 now st ⟨none, T, C, none, none⟩
      = (st.nextId,
         { rows := st.rows ++
             [⟨st.nextId,
               A.encrypt T (EncryptionService.getEncryptionKey A rkey st.kc).1
                 iv1 "aes-256-cbc", iv1,
               A.encrypt C (EncryptionService.getEncryptionKey A rkey st.kc).1
                 iv2 "aes-256-cbc", iv2,
               now, now⟩],
           nextId := st.nextId + 1,
           kc := ⟨some (EncryptionService.getEncryptionKey A rkey st.kc).1⟩ }) := by
  simp only [DatabaseService.saveNote, encrypt_eq, getEncryptionKey_stored,
    DatabaseService.jsTruthyNum, DatabaseService.jsOrNum]
  rfl

theorem saveNote_update (A : Aes) (rkey iv1 iv2 : String) (now : Nat)
    (st : DatabaseService.DbState) (note : DatabaseService.Note) (n : Nat)
    (hid : note.id = some n) (h0 : n ≠ 0) :
    DatabaseService.saveNote A rkey iv1 iv2 now st note
      = (n,
         { st with
           rows := st.rows.map (fun r =>
             if r.id = n then
               { r with
                 titleEncrypted :=
                   A.encrypt note.title
                     (EncryptionService.getEncryptionKey A rkey st.kc).1 iv1
                     "aes-256-cbc",
                 titleIv := iv1,
                 contentEncrypted :=
                   A.encrypt note.content
                     (EncryptionService.getEncryptionKey A rkey st.kc).1 iv2
                     "aes-256-cbc",
                 contentIv := iv2,
                 updatedAt := now }
             else r),
           kc := ⟨some (EncryptionService.getEncryptionKey A rkey st.kc).1⟩ }) := by
  simp only [DatabaseService.saveNote, encrypt_eq, getEncryptionKey_stored,
    hid, DatabaseService.jsTruthyNum]
  simp [bne_iff_ne, h0]

/-- C2: saving a note without an id inserts a fresh row: saveNote returns
the AUTOINCREMENT id (fresh: distinct from every existing row id), and
getNote of that id returns the note with that id, the saved title and
content (assuming the AES primitive round-trips), and createdAt equal to
updatedAt, both the insert timestamp. -/
theorem saveNote_getNote_roundtrip (A : Aes)
    (hA : ∀ d k iv, A.decrypt (A.encrypt d k iv "aes-256-cbc") k iv "aes-256-cbc" = some d)
    (rkey iv1 iv2 rkey2 : String) (now : Nat) (st : DatabaseService.DbState)
    (hfresh : ∀ r ∈ st.rows, r.id < st.nextId) (T C : String) :
    (DatabaseService.saveNote A rkey iv1 iv2 now st ⟨none, T, C, none, none⟩).1
      = st.nextId
    ∧ (∀ r ∈ st.rows,
        r.id ≠ (DatabaseService.saveNote A rkey iv1 iv2 now st
          ⟨none, T, C, none, none⟩).1)
    ∧ (DatabaseService.getNote A rkey2
        (DatabaseService.saveNote A rkey iv1 iv2 now st ⟨none, T, C, none, none⟩).2
        (DatabaseService.saveNote A rkey iv1 iv2 now st ⟨none, T, C, none, none⟩).1).1
      = .ok (some ⟨some st.nextId, T, C, some now, some now⟩) := by
  rw [saveNote_insert]
  refine ⟨rfl, ?_, ?_⟩
  · intro r hr
    exact Nat.ne_of_lt (hfresh r hr)
  · have hfind :
        (st.rows ++
          [(⟨st.nextId,
            A.encrypt T (EncryptionService.getEncryptionKey A rkey st.kc).1
              iv1 "aes-256-cbc", iv1,
            A.encrypt C (EncryptionService.getEncryptionKey A rkey st.kc).1
              iv2 "aes-256-cbc", iv2,
            now, now⟩ : DatabaseService.EncryptedNote)]).find?
            (fun r => r.id == st.nextId)
          = some ⟨st.nextId,
              A.encrypt T (EncryptionService.getEncryptionKey A rkey st.kc).1
                iv1 "aes-256-cbc", iv1,
              A.encrypt C (EncryptionService.getEncryptionKey A rkey st.kc).1
                iv2 "aes-256-cbc", iv2,
              now, now⟩ := by
      rw [List.find?_append]
      have h1 : st.rows.find? (fun r => r.id == st.nextId) = none := by
        rw [List.find?_eq_none]
        intro x hx
        simp [Nat.ne_of_lt (hfresh x hx)]
      rw [h1]
      simp [List.find?_singleton]
    simp only [DatabaseService.getNote, hfind, decryptNote_stored, hA]

/-- Closed witness for C2: the round-trip theorem at a concrete primitive,
an empty table with AUTOINCREMENT counter 1 and a stored key. -/
theorem saveNote_getNote_roundtrip_witness :
    (DatabaseService.getNote
        ⟨fun d _ _ _ => d, fun e _ _ _ => some e, fun r _ _ _ _ => r⟩ "rk2"
        (DatabaseService.saveNote
          ⟨fun d _ _ _ => d, fun e _ _ _ => some e, fun r _ _ _ _ => r⟩
          "rk" "iv1" "iv2" 5 ⟨[], 1, ⟨some "K"⟩⟩ ⟨none, "T", "C", none, none⟩).2
        (DatabaseService.saveNote
          ⟨fun d _ _ _ => d, fun e _ _ _ => some e, fun r _ _ _ _ => r⟩
          "rk" "iv1" "iv2" 5 ⟨[], 1, ⟨some "K"⟩⟩ ⟨none, "T", "C", none, none⟩).1).1
      = .ok (some ⟨some 1, "T", "C", some 5, some 5⟩) :=
  (saveNote_getNote_roundtrip
    ⟨fun d _ _ _ => d, fun e _ _ _ => some e, fun r _ _ _ _ => r⟩
    (fun _ _ _ => rfl) "rk" "iv1" "iv2" "rk2" 5 ⟨[], 1, ⟨some "K"⟩⟩
    (by simp) "T" "C").2.2

/-- C1: decrypting the result of encrypting any string s (empty, null or
unicode characters included) with the same key returns s: assuming the
native AES primitive round-trips per key, `EncryptionService.decrypt` applied
to the ciphertext and IV produced by `EncryptionService.encrypt s` returns
`Except.ok s`, the threaded keychain state guaranteeing both operations use
the same key. -/
theorem encryptionService_roundtrip (A : Aes)
    (hA : ∀ d k iv, A.decrypt (A.encrypt d k iv "aes-256-cbc") k iv "aes-256-cbc" = some d)
    (r1 r2 ivr : String) (kc : EncryptionService.KeychainState) (s : String) :
    (EncryptionService.decrypt A r2 (EncryptionService.encrypt A r1 ivr kc s).2
      (EncryptionService.encrypt A r1 ivr kc s).1.1
      (EncryptionService.encrypt A r1 ivr kc s).1.2).1 = .ok s := by
  have hst := getEncryptionKey_state A r1 kc
  simp only [EncryptionService.encrypt, EncryptionService.decrypt, hst,
    getEncryptionKey_stored, hA]

/-- Closed witness for C1: the round-trip theorem applied to a concrete
primitive satisfying the AES round-trip law and a string containing an
embedded null and a non-ASCII character, starting from an empty keychain. -/
theorem encryptionService_roundtrip_witness :
    (EncryptionService.decrypt ⟨fun d _ _ _ => d, fun e _ _ _ => some e, fun r _ _ _ _ => r⟩
      "r2" (EncryptionService.encrypt ⟨fun d _ _ _ => d, fun e _ _ _ => some e, fun r _ _ _ _ => r⟩
        "r1" "iv0" ⟨none⟩ "héllo\x00").2
      (EncryptionService.encrypt ⟨fun d _ _ _ => d, fun e _ _ _ => some e, fun r _ _ _ _ => r⟩
        "r1" "iv0" ⟨none⟩ "héllo\x00").1.1
      (EncryptionService.encrypt ⟨fun d _ _ _ => d, fun e _ _ _ => some e, fun r _ _ _ _ => r⟩
        "r1" "iv0" ⟨none⟩ "héllo\x00").1.2).1 = .ok "héllo\x00" :=
  encryptionService_roundtrip _ (fun _ _ _ => rfl) "r1" "r2" "iv0" ⟨none⟩ "héllo\x00"

/-- C4: getNote of an id matching no row returns `Except.ok none` (absent,
not an error); when a row is found but either of its two fields fails to
decrypt under the stored key, getNote fails with the DecodeFailed error
'Failed to decrypt note data' — the failure is propagated, not swallowed. -/
theorem getNote_absent_or_decode_failed (A : Aes) (rkey : String)
    (st : DatabaseService.DbState) (i : Nat) :
    ((∀ r ∈ st.rows, r.id ≠ i) →
      (DatabaseService.getNote A rkey st i).1 = .ok none)
    ∧ (∀ r, st.rows.find? (fun x => x.id == i) = some r →
        ∀ k, st.kc = ⟨some k⟩ →
        (A.decrypt r.titleEncrypted k r.titleIv "aes-256-cbc" = none
          ∨ A.decrypt r.contentEncrypted k r.contentIv "aes-256-cbc" = none) →
        (DatabaseService.getNote A rkey st i).1
          = .error "Failed to decrypt note data") := by
  constructor
  · intro h
    have hfind : st.rows.find? (fun r => r.id == i) = none := by
      rw [List.find?_eq_none]
      intro x hx
      simp [h x hx]
    simp only [DatabaseService.getNote, hfind]
  · intro r hr k hk hfail
    simp only [DatabaseService.getNote, hr, hk, decryptNote_stored]
    rcases hfail with h | h
    · simp only [h]
    · cases A.decrypt r.titleEncrypted k r.titleIv "aes-256-cbc" <;>
        simp only [h]

/-- Closed witness for C4: an id with no row yields an absent result, and a
found row whose title fails to decrypt yields the DecodeFailed error. -/
theorem getNote_absent_or_decode_failed_witness :
    (DatabaseService.getNote
        ⟨fun d _ _ _ => d, fun _ _ _ _ => none, fun r _ _ _ _ => r⟩ "rk"
        ⟨[⟨1, "tE", "tIv", "cE", "cIv", 3, 4⟩], 2, ⟨some "K"⟩⟩ 5).1 = .ok none
    ∧ (DatabaseService.getNote
        ⟨fun d _ _ _ => d, fun _ _ _ _ => none, fun r _ _ _ _ => r⟩ "rk"
        ⟨[⟨1, "tE", "tIv", "cE", "cIv", 3, 4⟩], 2, ⟨some "K"⟩⟩ 1).1
      = .error "Failed to decrypt note data" :=
  ⟨(getNote_absent_or_decode_failed
      ⟨fun d _ _ _ => d, fun _ _ _ _ => none, fun r _ _ _ _ => r⟩ "rk"
      ⟨[⟨1, "tE", "tIv", "cE", "cIv", 3, 4⟩], 2, ⟨some "K"⟩⟩ 5).1 (by decide),
   (getNote_absent_or_decode_failed
      ⟨fun d _ _ _ => d, fun _ _ _ _ => none, fun r _ _ _ _ => r⟩ "rk"
      ⟨[⟨1, "tE", "tIv", "cE", "cIv", 3, 4⟩], 2, ⟨some "K"⟩⟩ 1).2
     ⟨1, "tE", "tIv", "cE", "cIv", 3, 4⟩ (by decide) "K" rfl (Or.inl rfl)⟩

/-- C5 counterexample: a note whose id is present but equal to 0 does NOT
take the update branch — on an empty table the call inserts a new row and
returns the fresh AUTOINCREMENT id 1 instead of the carried id 0, because
`if (note.id)` treats 0 as falsy. -/
theorem saveNote_id_zero_not_update :
    (DatabaseService.saveNote
        ⟨fun d _ _ _ => d, fun e _ _ _ => some e, fun r _ _ _ _ => r⟩
        "rk" "iv1" "iv2" 9 ⟨[], 1, ⟨some "K"⟩⟩
        ⟨some 0, "T", "C", none, none⟩).1 ≠ 0
    ∧ (DatabaseService.saveNote
        ⟨fun d _ _ _ => d, fun e _ _ _ => some e, fun r _ _ _ _ => r⟩
        "rk" "iv1" "iv2" 9 ⟨[], 1, ⟨some "K"⟩⟩
        ⟨some 0, "T", "C", none, none⟩).2.rows.length = 1 := by
  constructor <;> decide

/-- C5 (amended to notes whose present id is nonzero): saveNote takes the
update branch and returns the same id; the table keeps its length and
AUTOINCREMENT counter (no row inserted); rows with other ids are unchanged;
the matching row keeps its createdAt, gets updatedAt set to the update
timestamp and, the clock having advanced past its previous value, its
updatedAt strictly increases. -/
theorem saveNote_update_spec (A : Aes) (rkey iv1 iv2 : String) (now : Nat)
    (st : DatabaseService.DbState) (note : DatabaseService.Note) (n : Nat)
    (hid : note.id = some n) (h0 : n ≠ 0)
    (hadv : ∀ r ∈ st.rows, r.updatedAt < now) :
    (DatabaseService.saveNote A rkey iv1 iv2 now st note).1 = n
    ∧ (DatabaseService.saveNote A rkey iv1 iv2 now st note).2.nextId = st.nextId
    ∧ (DatabaseService.saveNote A rkey iv1 iv2 now st note).2.rows.length
        = st.rows.length
    ∧ (∀ r ∈ st.rows, r.id ≠ n →
        r ∈ (DatabaseService.saveNote A rkey iv1 iv2 now st note).2.rows)
    ∧ (∀ r ∈ st.rows, r.id = n →
        ∃ r' ∈ (DatabaseService.saveNote A rkey iv1 iv2 now st note).2.rows,
          r'.id = n ∧ r'.createdAt = r.createdAt ∧ r'.updatedAt = now
          ∧ r.updatedAt < r'.updatedAt) := by
  rw [saveNote_update A rkey iv1 iv2 now st note n hid h0]
  refine ⟨rfl, rfl, by simp, ?_, ?_⟩
  · intro r hr hne
    simp only [List.mem_map]
    exact ⟨r, hr, by simp [hne]⟩
  · intro r hr heq
    refine ⟨_, List.mem_map_of_mem _ hr, ?_⟩
    simp [heq, hadv r hr]

/-- Closed witness for C5's amended theorem at a one-row table. -/
theorem saveNote_update_spec_witness :
    (DatabaseService.saveNote
        ⟨fun d _ _ _ => d, fun e _ _ _ => some e, fun r _ _ _ _ => r⟩
        "rk" "iv1" "iv2" 9 ⟨[⟨2, "a", "b", "c", "d", 1, 1⟩], 3, ⟨some "K"⟩⟩
        ⟨some 2, "T", "C", none, none⟩).1 = 2
    ∧ (DatabaseService.saveNote
        ⟨fun d _ _ _ => d, fun e _ _ _ => some e, fun r _ _ _ _ => r⟩
        "rk" "iv1" "iv2" 9 ⟨[⟨2, "a", "b", "c", "d", 1, 1⟩], 3, ⟨some "K"⟩⟩
        ⟨some 2, "T", "C", none, none⟩).2.nextId = 3 :=
  ⟨(saveNote_update_spec
      ⟨fun d _ _ _ => d, fun e _ _ _ => some e, fun r _ _ _ _ => r⟩
      "rk" "iv1" "iv2" 9 ⟨[⟨2, "a", "b", "c", "d", 1, 1⟩], 3, ⟨some "K"⟩⟩
      ⟨some 2, "T", "C", none, none⟩ 2 rfl (by decide) (by decide)).1,
   (saveNote_update_spec
      ⟨fun d _ _ _ => d, fun e _ _ _ => some e, fun r _ _ _ _ => r⟩
      "rk" "iv1" "iv2" 9 ⟨[⟨2, "a", "b", "c", "d", 1, 1⟩], 3, ⟨some "K"⟩⟩
      ⟨some 2, "T", "C", none, none⟩ 2 rfl (by decide) (by decide)).2.1⟩

/-- C10 counterexample: a note carrying id 0, an id no row has, does NOT
leave the table unchanged — the call inserts a new row (the table grows)
and returns the fresh AUTOINCREMENT id 7 rather than the carried id 0. -/
theorem saveNote_id_zero_creates_row :
    (DatabaseService.saveNote
        ⟨fun d _ _ _ => d, fun e _ _ _ => some e, fun r _ _ _ _ => r⟩
        "rk" "iv1" "iv2" 9 ⟨[], 7, ⟨some "K"⟩⟩
        ⟨some 0, "T", "C", none, none⟩).1 = 7
    ∧ (DatabaseService.saveNote
        ⟨fun d _ _ _ => d, fun e _ _ _ => some e, fun r _ _ _ _ => r⟩
        "rk" "iv1" "iv2" 9 ⟨[], 7, ⟨some "K"⟩⟩
        ⟨some 0, "T", "C", none, none⟩).2.rows ≠ [] := by
  constructor <;> decide

/-- C10 (amended to notes whose carried id is nonzero): when no row has
that id, saveNote runs the UPDATE branch which affects zero rows, leaves
the table and AUTOINCREMENT counter unchanged and still returns the carried
id, and a subsequent getNote of that id returns absent. -/
theorem saveNote_nonexistent_id_spec (A : Aes) (rkey iv1 iv2 rkey2 : String)
    (now : Nat) (st : DatabaseService.DbState) (note : DatabaseService.Note)
    (n : Nat) (hid : note.id = some n) (h0 : n ≠ 0)
    (habs : ∀ r ∈ st.rows, r.id ≠ n) :
    (DatabaseService.saveNote A rkey iv1 iv2 now st note).1 = n
    ∧ (DatabaseService.saveNote A rkey iv1 iv2 now st note).2.rows = st.rows
    ∧ (DatabaseService.saveNote A rkey iv1 iv2 now st note).2.nextId = st.nextId
    ∧ (DatabaseService.getNote A rkey2
        (DatabaseService.saveNote A rkey iv1 iv2 now st note).2 n).1 = .ok none := by
  rw [saveNote_update A rkey iv1 iv2 now st note n hid h0]
  have h2 : st.rows.map (fun r =>
      if r.id = n then
        { r with
          titleEncrypted :=
            A.encrypt note.title
              (EncryptionService.getEncryptionKey A rkey st.kc).1 iv1
              "aes-256-cbc",
          titleIv := iv1,
          contentEncrypted :=
            A.encrypt note.content
              (EncryptionService.getEncryptionKey A rkey st.kc).1 iv2
              "aes-256-cbc",
          contentIv := iv2,
          updatedAt := now }
      else r) = st.rows := by
    conv_rhs => rw [← List.map_id st.rows]
    exact List.map_congr_left (fun a ha => by simp [habs a ha])
  refine ⟨rfl, h2, rfl, ?_⟩
  have hfind : st.rows.find? (fun r => r.id == n) = none := by
    rw [List.find?_eq_none]
    intro x hx
    simp [habs x hx]
  simp only [DatabaseService.getNote, h2, hfind]

/-- Closed witness for C10's amended theorem: saving id 3 against a table
whose only row has id 2 changes nothing and getNote 3 is absent. -/
theorem saveNote_nonexistent_id_spec_witness :
    (DatabaseService.saveNote
        ⟨fun d _ _ _ => d, fun e _ _ _ => some e, fun r _ _ _ _ => r⟩
        "rk" "iv1" "iv2" 9 ⟨[⟨2, "a", "b", "c", "d", 1, 1⟩], 3, ⟨some "K"⟩⟩
        ⟨some 3, "T", "C", none, none⟩).2.rows = [⟨2, "a", "b", "c", "d", 1, 1⟩]
    ∧ (DatabaseService.getNote
        ⟨fun d _ _ _ => d, fun e _ _ _ => some e, fun r _ _ _ _ => r⟩ "rk2"
        (DatabaseService.saveNote
          ⟨fun d _ _ _ => d, fun e _ _ _ => some e, fun r _ _ _ _ => r⟩
          "rk" "iv1" "iv2" 9 ⟨[⟨2, "a", "b", "c", "d", 1, 1⟩], 3, ⟨some "K"⟩⟩
          ⟨some 3, "T", "C", none, none⟩).2 3).1 = .ok none :=
  ⟨(saveNote_nonexistent_id_spec
      ⟨fun d _ _ _ => d, fun e _ _ _ => some e, fun r _ _ _ _ => r⟩
      "rk" "iv1" "iv2" "rk2" 9 ⟨[⟨2, "a", "b", "c", "d", 1, 1⟩], 3, ⟨some "K"⟩⟩
      ⟨some 3, "T", "C", none, none⟩ 3 rfl (by decide) (by decide)).2.1,
   (saveNote_nonexistent_id_spec
      ⟨fun d _ _ _ => d, fun e _ _ _ => some e, fun r _ _ _ _ => r⟩
      "rk" "iv1" "iv2" "rk2" 9 ⟨[⟨2, "a", "b", "c", "d", 1, 1⟩], 3, ⟨some "K"⟩⟩
      ⟨some 3, "T", "C", none, none⟩ 3 rfl (by decide) (by decide)).2.2.2⟩

/-- C6: two getEncryptionKey calls without an intervening reset return the
identical key; the first call persists the key in the keychain (after it the
stored password is exactly the returned key) and the second call fetches and
returns that stored key, leaving the state unchanged. -/
theorem getEncryptionKey_stable (A : Aes) (r1 r2 : String)
    (kc : EncryptionService.KeychainState) :
    (EncryptionService.getEncryptionKey A r2
        (EncryptionService.getEncryptionKey A r1 kc).2).1
      = (EncryptionService.getEncryptionKey A r1 kc).1
    ∧ (EncryptionService.getEncryptionKey A r1 kc).2.password
      = some (EncryptionService.getEncryptionKey A r1 kc).1
    ∧ (EncryptionService.getEncryptionKey A r2
        (EncryptionService.getEncryptionKey A r1 kc).2).2
      = (EncryptionService.getEncryptionKey A r1 kc).2 := by
  have hst := getEncryptionKey_state A r1 kc
  refine ⟨?_, ?_, ?_⟩ <;>
    simp [hst, getEncryptionKey_stored]

theorem decryptNote_ok_updatedAt (A : Aes) (rkey k : String)
    (r : DatabaseService.EncryptedNote) (nt : DatabaseService.Note) :
    (DatabaseService.decryptNote A rkey ⟨some k⟩ r).1 = .ok nt →
      nt.updatedAt = some r.updatedAt := by
  rw [decryptNote_stored]
  cases A.decrypt r.titleEncrypted k r.titleIv "aes-256-cbc" with
  | none => intro h; exact absurd h (by simp)
  | some t =>
      cases A.decrypt r.contentEncrypted k r.contentIv "aes-256-cbc" with
      | none => intro h; exact absurd h (by simp)
      | some c =>
          intro h
          simp only [Except.ok.injEq] at h
          rw [← h]

theorem getAllNotesLoop_stored (A : Aes) (rkey k : String)
    (rows : List DatabaseService.EncryptedNote) :
    DatabaseService.getAllNotesLoop A rkey rows ⟨some k⟩
      = (rows.filterMap
          (fun r => ((DatabaseService.decryptNote A rkey ⟨some k⟩ r).1).toOption),
         ⟨some k⟩) := by
  induction rows with
  | nil => rfl
  | cons r rs ih =>
      have hst : (DatabaseService.decryptNote A rkey ⟨some k⟩ r).2 = ⟨some k⟩ := by
        rw [decryptNote_stored]
      simp only [DatabaseService.getAllNotesLoop, hst, ih, List.filterMap_cons]
      cases hd : (DatabaseService.decryptNote A rkey ⟨some k⟩ r).1 <;>
        simp [hd, Except.toOption]

/-- C3: with the key stored, getAllNotes returns exactly the decodable
rows: it equals the updatedAt-descending sort of the table filtered through
the codec, is a permutation of the decodable subset of the table, is
pairwise sorted by updatedAt descending, and every row that decodes
successfully contributes its note to the listing — an undecodable row is
omitted without aborting the listing. -/
theorem getAllNotes_spec (A : Aes) (rkey k : String)
    (st : DatabaseService.DbState) (hkc : st.kc = ⟨some k⟩) :
    (DatabaseService.getAllNotes A rkey st).1
        = (List.insertionSort DatabaseService.updatedDescRel st.rows).filterMap
            (fun r => ((DatabaseService.decryptNote A rkey ⟨some k⟩ r).1).toOption)
    ∧ (DatabaseService.getAllNotes A rkey st).1.Perm
        (st.rows.filterMap
          (fun r => ((DatabaseService.decryptNote A rkey ⟨some k⟩ r).1).toOption))
    ∧ List.Pairwise (fun a b => b.updatedAt.getD 0 ≤ a.updatedAt.getD 0)
        (DatabaseService.getAllNotes A rkey st).1
    ∧ ∀ r ∈ st.rows, ∀ nt,
        (DatabaseService.decryptNote A rkey ⟨some k⟩ r).1 = .ok nt →
        nt ∈ (DatabaseService.getAllNotes A rkey st).1 := by
  have h1 : (DatabaseService.getAllNotes A rkey st).1
      = (List.insertionSort DatabaseService.updatedDescRel st.rows).filterMap
          (fun r => ((DatabaseService.decryptNote A rkey ⟨some k⟩ r).1).toOption) := by
    simp only [DatabaseService.getAllNotes, hkc, getAllNotesLoop_stored]
  have h2 : (DatabaseService.getAllNotes A rkey st).1.Perm
      (st.rows.filterMap
        (fun r => ((DatabaseService.decryptNote A rkey ⟨some k⟩ r).1).toOption)) := by
    rw [h1]
    exact List.Perm.filterMap _
      (List.perm_insertionSort DatabaseService.updatedDescRel st.rows)
  refine ⟨h1, h2, ?_, ?_⟩
  · rw [h1]
    have hsorted : List.Pairwise DatabaseService.updatedDescRel
        (List.insertionSort DatabaseService.updatedDescRel st.rows) :=
      List.sorted_insertionSort DatabaseService.updatedDescRel st.rows
    refine List.Pairwise.filterMap _ ?_ hsorted
    intro a a' haa b hb b' hb'
    have hb1 : (DatabaseService.decryptNote A rkey ⟨some k⟩ a).1 = .ok b := by
      cases hx : (DatabaseService.decryptNote A rkey ⟨some k⟩ a).1 <;>
        simp_all [Except.toOption]
    have hb2 : (DatabaseService.decryptNote A rkey ⟨some k⟩ a').1 = .ok b' := by
      cases hx : (DatabaseService.decryptNote A rkey ⟨some k⟩ a').1 <;>
        simp_all [Except.toOption]
    have hu1 := decryptNote_ok_updatedAt A rkey k a b hb1
    have hu2 := decryptNote_ok_updatedAt A rkey k a' b' hb2
    have haa2 : a'.updatedAt ≤ a.updatedAt := haa
    simp [hu1, hu2, haa2]
  · intro r hr nt hok
    refine (h2.mem_iff).2 ?_
    rw [List.mem_filterMap]
    exact ⟨r, hr, by simp [hok, Except.toOption]⟩

/-- Closed witness for C3: a two-row table with a stored key in which the
more recently updated row fails to decrypt; the listing keeps the decodable
row (sorted, as the permutation and ordering conjuncts of the theorem
state). -/
theorem getAllNotes_spec_witness :
    (DatabaseService.getAllNotes
        ⟨fun d _ _ _ => d,
         fun e _ iv _ => if iv = "bad" then none else some e,
         fun r _ _ _ _ => r⟩ "rk"
        ⟨[⟨1, "t1", "good", "c1", "good", 10, 10⟩,
          ⟨2, "t2", "bad", "c2", "good", 20, 20⟩], 3, ⟨some "K"⟩⟩).1
      = [⟨some 1, "t1", "c1", some 10, some 10⟩]
    ∧ List.Pairwise (fun a b => b.updatedAt.getD 0 ≤ a.updatedAt.getD 0)
        (DatabaseService.getAllNotes
          ⟨fun d _ _ _ => d,
           fun e _ iv _ => if iv = "bad" then none else some e,
           fun r _ _ _ _ => r⟩ "rk"
          ⟨[⟨1, "t1", "good", "c1", "good", 10, 10⟩,
            ⟨2, "t2", "bad", "c2", "good", 20, 20⟩], 3, ⟨some "K"⟩⟩).1 :=
  ⟨by
    have h := (getAllNotes_spec
      ⟨fun d _ _ _ => d,
       fun e _ iv _ => if iv = "bad" then none else some e,
       fun r _ _ _ _ => r⟩ "rk" "K"
      ⟨[⟨1, "t1", "good", "c1", "good", 10, 10⟩,
        ⟨2, "t2", "bad", "c2", "good", 20, 20⟩], 3, ⟨some "K"⟩⟩ rfl).1
    rw [h]
    decide,
   (getAllNotes_spec
      ⟨fun d _ _ _ => d,
       fun e _ iv _ => if iv = "bad" then none else some e,
       fun r _ _ _ _ => r⟩ "rk" "K"
      ⟨[⟨1, "t1", "good", "c1", "good", 10, 10⟩,
        ⟨2, "t2", "bad", "c2", "good", 20, 20⟩], 3, ⟨some "K"⟩⟩ rfl).2.2.1⟩

theorem getNote_found_cases (A : Aes) (rkey2 : String)
    (st' : DatabaseService.DbState) (i : Nat) (k : String)
    (hk : st'.kc = ⟨some k⟩)
    (hs : (st'.rows.find? (fun x => x.id == i)).isSome) :
    (∃ nt, (DatabaseService.getNote A rkey2 st' i).1 = .ok (some nt))
    ∨ (DatabaseService.getNote A rkey2 st' i).1
        = .error "Failed to decrypt note data" := by
  obtain ⟨r0, hr0⟩ := Option.isSome_iff_exists.mp hs
  simp only [DatabaseService.getNote, hr0, hk, decryptNote_stored]
  cases A.decrypt r0.titleEncrypted k r0.titleIv "aes-256-cbc" with
  | none => exact Or.inr rfl
  | some t =>
      cases A.decrypt r0.contentEncrypted k r0.contentIv "aes-256-cbc" with
      | none => exact Or.inr rfl
      | some c => exact Or.inl ⟨_, rfl⟩

/-- C9 counterexample: updateNote invoked with a registered observer on an
id for which no row exists completes with NO notification at all — the
post-save fetch returns absent, so neither a success nor a failure callback
fires, against the claim that every operation notifies exactly once. -/
theorem updateNote_absent_id_no_notification :
    (NotePresenter.updateNote
        ⟨fun d _ _ _ => d, fun e _ _ _ => some e, fun r _ _ _ _ => r⟩
        "rk" "iv1" "iv2" "rk2" 5 ⟨[], 1, ⟨some "K"⟩⟩ 1 "T" "C" true).1 = [] := by
  decide

/-- C9 (amended: updateNote on an id for which no row exists delivers no
notification; every other case notifies exactly once): with an observer
registered, loadNotes, deleteNote and addNote each deliver exactly one
notification (success or failure); updateNote on a nonzero id some row has
delivers exactly one; updateNote on a nonzero id no row has delivers
none. -/
theorem presenter_notifies (A : Aes) (rkey iv1 iv2 rkey2 : String)
    (now : Nat) (st : DatabaseService.DbState) (title content : String)
    (i : Nat) :
    (NotePresenter.loadNotes A rkey st true).1.length = 1
    ∧ (NotePresenter.deleteNote st i true).1.length = 1
    ∧ (NotePresenter.addNote A rkey iv1 iv2 rkey2 now st title content
        true).1.length = 1
    ∧ (i ≠ 0 → (∃ r ∈ st.rows, r.id = i) →
        (NotePresenter.updateNote A rkey iv1 iv2 rkey2 now st i title content
          true).1.length = 1)
    ∧ (i ≠ 0 → (∀ r ∈ st.rows, r.id ≠ i) →
        (NotePresenter.updateNote A rkey iv1 iv2 rkey2 now st i title content
          true).1.length = 0) := by
  refine ⟨by simp [NotePresenter.loadNotes], by simp [NotePresenter.deleteNote],
    ?_, ?_, ?_⟩
  · have hk : (DatabaseService.saveNote A rkey iv1 iv2 now st
        ⟨none, title, content, none, none⟩).2.kc
        = ⟨some (EncryptionService.getEncryptionKey A rkey st.kc).1⟩ := by
      rw [saveNote_insert]
    have hs : ((DatabaseService.saveNote A rkey iv1 iv2 now st
        ⟨none, title, content, none, none⟩).2.rows.find?
          (fun x => x.id == (DatabaseService.saveNote A rkey iv1 iv2 now st
            ⟨none, title, content, none, none⟩).1)).isSome := by
      rw [saveNote_insert, List.find?_isSome]
      refine ⟨_, List.mem_append_right _ (List.mem_singleton_self _), ?_⟩
      simp
    rcases getNote_found_cases A rkey2 _ _ _ hk hs with ⟨nt, hg⟩ | hg <;>
      simp [NotePresenter.addNote, hg]
  · intro h0 hex
    obtain ⟨r, hr, heq⟩ := hex
    have hk : (DatabaseService.saveNote A rkey iv1 iv2 now st
        ⟨some i, title, content, none, none⟩).2.kc
        = ⟨some (EncryptionService.getEncryptionKey A rkey st.kc).1⟩ := by
      rw [saveNote_update A rkey iv1 iv2 now st ⟨some i, title, content, none,
        none⟩ i rfl h0]
    have hs : ((DatabaseService.saveNote A rkey iv1 iv2 now st
        ⟨some i, title, content, none, none⟩).2.rows.find?
          (fun x => x.id == i)).isSome := by
      rw [saveNote_update A rkey iv1 iv2 now st ⟨some i, title, content, none,
        none⟩ i rfl h0, List.find?_isSome]
      refine ⟨_, List.mem_map_of_mem _ hr, ?_⟩
      simp [heq]
    rcases getNote_found_cases A rkey2 _ _ _ hk hs with ⟨nt, hg⟩ | hg <;>
      simp [NotePresenter.updateNote, hg]
  · intro h0 habs
    have hnone : ((DatabaseService.saveNote A rkey iv1 iv2 now st
        ⟨some i, title, content, none, none⟩).2.rows.find?
          (fun x => x.id == i)) = none := by
      rw [saveNote_update A rkey iv1 iv2 now st ⟨some i, title, content, none,
        none⟩ i rfl h0, List.find?_eq_none]
      intro x hx
      obtain ⟨a, ha, rfl⟩ := List.mem_map.1 hx
      simp [habs a ha]
    simp [NotePresenter.updateNote, DatabaseService.getNote, hnone]

/-- Closed witness for C9's amended theorem: on a one-row table, updating
the existing id notifies exactly once, and updating a missing id notifies
zero times. -/
theorem presenter_notifies_witness :
    (NotePresenter.updateNote
        ⟨fun d _ _ _ => d, fun e _ _ _ => some e, fun r _ _ _ _ => r⟩
        "rk" "iv1" "iv2" "rk2" 9 ⟨[⟨2, "a", "b", "c", "d", 1, 1⟩], 3, ⟨some "K"⟩⟩
        2 "T" "C" true).1.length = 1
    ∧ (NotePresenter.updateNote
        ⟨fun d _ _ _ => d, fun e _ _ _ => some e, fun r _ _ _ _ => r⟩
        "rk" "iv1" "iv2" "rk2" 9 ⟨[⟨2, "a", "b", "c", "d", 1, 1⟩], 3, ⟨some "K"⟩⟩
        5 "T" "C" true).1.length = 0 :=
  ⟨(presenter_notifies
      ⟨fun d _ _ _ => d, fun e _ _ _ => some e, fun r _ _ _ _ => r⟩
      "rk" "iv1" "iv2" "rk2" 9 ⟨[⟨2, "a", "b", "c", "d", 1, 1⟩], 3, ⟨some "K"⟩⟩
      "T" "C" 2).2.2.2.1 (by decide) ⟨⟨2, "a", "b", "c", "d", 1, 1⟩, by decide, rfl⟩,
   (presenter_notifies
      ⟨fun d _ _ _ => d, fun e _ _ _ => some e, fun r _ _ _ _ => r⟩
      "rk" "iv1" "iv2" "rk2" 9 ⟨[⟨2, "a", "b", "c", "d", 1, 1⟩], 3, ⟨some "K"⟩⟩
      "T" "C" 5).2.2.2.2 (by decide) (by decide)⟩

/-- C7: the decrypt of the revision that checks IVs validates the IV length
before decrypting — for every native-module state (decrypt primitive present
or absent), an absent (empty) or wrong-length IV makes the try-block fail
with the InvalidIv error and the whole operation fail with the generic
decryption error; with a valid-length IV a native rejection yields the
DecryptionFailed error; and each failing outcome is distinct from a
successful empty-string result. -/
theorem decrypt2_validates_iv (N : EncryptionService2.NativeAes)
    (rk rs : String) (st : EncryptionService2.EncState2) (e iv : String) :
    (iv = "" ∨ iv.length ≠ 32 →
      (EncryptionService2.decrypt2Body N rk rs st e iv).1 = .error .invalidIv
      ∧ (EncryptionService2.decrypt2 N rk rs st e iv).1
          = .error "Failed to decrypt data"
      ∧ (EncryptionService2.decrypt2Body N rk rs st e iv).1 ≠ .ok "")
    ∧ (∀ f, N.decrypt = some f → (∀ a b c d, f a b c d = none) →
        iv.length = 32 →
        (EncryptionService2.decrypt2Body N rk rs st e iv).1
          = .error .decryptionFailed
        ∧ (EncryptionService2.decrypt2Body N rk rs st e iv).1 ≠ .ok "") := by
  constructor
  · intro hiv
    refine ⟨?_, ?_, ?_⟩ <;>
      simp [EncryptionService2.decrypt2Body, EncryptionService2.decrypt2,
        if_pos hiv]
  · intro f hf hnone hlen
    have hiv : ¬(iv = "" ∨ iv.length ≠ 32) := by
      rintro (h | h)
      · rw [h] at hlen; simp at hlen
      · exact h hlen
    constructor <;>
      simp [EncryptionService2.decrypt2Body, if_neg hiv, hf, hnone]

/-- Closed witness for C7: at a concrete two-character IV the try-block
fails with InvalidIv and the operation fails with the generic error. -/
theorem decrypt2_validates_iv_witness :
    (EncryptionService2.decrypt2Body ⟨none, none, none⟩ "rk" "rs"
        ⟨some "K", some "S"⟩ "c" "xy").1 = .error .invalidIv
    ∧ (EncryptionService2.decrypt2 ⟨none, none, none⟩ "rk" "rs"
        ⟨some "K", some "S"⟩ "c" "xy").1 = .error "Failed to decrypt data"
    ∧ (EncryptionService2.decrypt2Body ⟨none, none, none⟩ "rk" "rs"
        ⟨some "K", some "S"⟩ "c" "xy").1 ≠ .ok "" :=
  (decrypt2_validates_iv ⟨none, none, none⟩ "rk" "rs" ⟨some "K", some "S"⟩
    "c" "xy").1 (Or.inr (by decide))

/-- C8: with the native cipher absent, encrypt of the revision containing
the fallback does NOT fail fast: it takes the insecure-fallback branch and
succeeds, returning the XOR-with-fixed-dev-key base64 ciphertext for
"hello" instead of an error, contradicting the requirement that the
operation fail with a CipherUnavailable error. -/
theorem encrypt2_insecure_fallback_taken :
    (EncryptionService2.encrypt2 ⟨none, none, none⟩ (fun s => s) "rk" "rs"
        "00112233445566778899aabbccddeeff" ⟨some "K", some "S"⟩ "hello").1
      = .ok ("OwAPGR0=", "00112233445566778899aabbccddeeff")
    ∧ (EncryptionService2.encrypt2 ⟨none, none, none⟩ (fun s => s) "rk" "rs"
        "00112233445566778899aabbccddeeff" ⟨some "K", some "S"⟩ "hello").1
      = .ok (EncryptionService2.simpleFallbackEncrypt (fun s => s) "hello",
          "00112233445566778899aabbccddeeff") := by
  constructor <;> rfl
